import Mathlib

/-!
Verification of the state-store, callback, session-service and parallel-workflow
examples of the ADK/Agent-Framework tutorial repository.

The Python sources are shallowly embedded: the SQLite `user_state` table becomes
an ordered list of rows keyed by `user_id` (the column declared `PRIMARY KEY`),
JSON serialisation becomes an explicit encoder/decoder over a small JSON AST,
and each store/callback operation becomes a pure Lean function mirroring the
Python statement by statement.
-/

/-- Python `str.lower()`, as the ASCII per-character lowering `Char.toLower`
applied to every character (extensionally `String.toLower`, written as a plain
list map so that it evaluates by reduction). -/
def lowerStr (s : String) : String := String.mk (s.data.map Char.toLower)

namespace Recipes

/-- A JSON value, as produced by Python `json.dumps` / consumed by `json.loads`
for the data shapes this program stores. -/
inductive Json where
  | str : String → Json
  | int : Int → Json
  | arr : List Json → Json
  | obj : List (String × Json) → Json

/-- One recipe record, as built by `add_recipe` (a Python dict with exactly the
keys `name`, `ingredients`, `instructions`, `cook_time`, `date_added`). -/
structure Recipe where
  name : String
  ingredients : String
  instructions : String
  cook_time : String
  date_added : String
deriving Repr, DecidableEq

/-- `RecipeState` dataclass: `chef_name="Alice"`, `total_recipes=0`,
`recipes=[]` by default. -/
structure RecipeState where
  chef_name : String := "Alice"
  total_recipes : Int := 0
  recipes : List Recipe := []
deriving Repr, DecidableEq

/-- `json.dumps(asdict(recipe))` for one recipe dict, field order as inserted
by `add_recipe`. -/
def encodeRecipe (r : Recipe) : Json :=
  .obj [("name", .str r.name), ("ingredients", .str r.ingredients),
        ("instructions", .str r.instructions), ("cook_time", .str r.cook_time),
        ("date_added", .str r.date_added)]

/-- `json.dumps(state.to_dict())`: `asdict` lists fields in declaration order. -/
def encodeState (s : RecipeState) : Json :=
  .obj [("chef_name", .str s.chef_name), ("total_recipes", .int s.total_recipes),
        ("recipes", .arr (s.recipes.map encodeRecipe))]

/-- Decode one recipe dict back into a record.  (In Python the loaded recipes
stay plain dicts; the typed model decodes the five keys `add_recipe` writes,
failing on any other shape.) -/
def decodeRecipe : Json → Option Recipe
  | .obj kvs =>
    match kvs.lookup "name", kvs.lookup "ingredients", kvs.lookup "instructions",
          kvs.lookup "cook_time", kvs.lookup "date_added" with
    | some (.str n), some (.str ing), some (.str ins), some (.str c), some (.str d) =>
        some { name := n, ingredients := ing, instructions := ins,
               cook_time := c, date_added := d }
    | _, _, _, _, _ => none
  | _ => none

def decodeRecipes : List Json → Option (List Recipe)
  | [] => some []
  | j :: rest =>
    match decodeRecipe j, decodeRecipes rest with
    | some r, some rs => some (r :: rs)
    | _, _ => none

/-- The field names `RecipeState(**d)` accepts as keyword arguments. -/
def stateFieldNames : List String := ["chef_name", "total_recipes", "recipes"]

/-- `json.loads` followed by `RecipeState(**state_dict)`: an unknown key raises
`TypeError` (`none`), a missing key takes the dataclass default. -/
def decodeState : Json → Option RecipeState
  | .obj kvs =>
    if kvs.all (fun kv => stateFieldNames.contains kv.1) then
      match
        (match kvs.lookup "chef_name" with
         | some (.str c) => some c
         | none => some "Alice"
         | some _ => none),
        (match kvs.lookup "total_recipes" with
         | some (.int n) => some n
         | none => some 0
         | some _ => none),
        (match kvs.lookup "recipes" with
         | some (.arr js) => decodeRecipes js
         | none => some []
         | some _ => none) with
      | some c, some n, some rs =>
          some { chef_name := c, total_recipes := n, recipes := rs }
      | _, _, _ => none
    else none
  | _ => none

/-- One row of the `user_state` table (beyond the `user_id` key column):
`app_name`, `state_json`, `created_at`, `updated_at`.  Timestamps are modelled
as naturals. -/
structure Row where
  app_name : String
  state_json : Json
  created_at : Nat
  updated_at : Nat

/-- The `user_state` table, in row order.  The first component is the
`user_id` column, declared `PRIMARY KEY` in `_init_db`. -/
abbrev Table := List (String × Row)

/-- The `WHERE user_id = ? AND app_name = ?` predicate used by `get_state`
and by the `COALESCE` subquery of `save_state`. -/
def rowMatches (u a : String) (p : String × Row) : Bool :=
  p.1 == u && p.2.app_name == a

/-- `RecipeStateStore.get_state`: `SELECT state_json ... WHERE user_id = ?
AND app_name = ?`, `fetchone`, then `RecipeState(**json.loads(row[0]))` when a
row exists and `RecipeState()` otherwise.  The query only reads, so the model
takes the table and returns a value; `none` models a decode exception. -/
def get_state (db : Table) (u a : String) : Option RecipeState :=
  match db.find? (rowMatches u a) with
  | some p => decodeState p.2.state_json
  | none => some {}

/-- `RecipeStateStore.save_state`: the `COALESCE` subquery reads the existing
`created_at` for this user and app (else `now`); `INSERT OR REPLACE` then
deletes any row with the same `user_id` — the whole PRIMARY KEY — and appends
the new row. -/
def save_state (db : Table) (u a : String) (s : RecipeState) (now : Nat) : Table :=
  let created : Nat :=
    match db.find? (rowMatches u a) with
    | some p => p.2.created_at
    | none => now
  db.filter (fun p => p.1 != u) ++
    [(u, { app_name := a, state_json := encodeState s, created_at := created,
           updated_at := now })]

/-- The `COALESCE((SELECT created_at ...), ?)` value `save_state` writes. -/
def coalesceCreated (db : Table) (u a : String) (now : Nat) : Nat :=
  match db.find? (rowMatches u a) with
  | some p => p.2.created_at
  | none => now

/-- A sequence of `save_state` calls for one fixed user and app, in order. -/
def saveAll (db : Table) (u a : String) : List (RecipeState × Nat) → Table
  | [] => db
  | (s, t) :: rest => saveAll (save_state db u a s t) u a rest

/-- Any `(user_id, app_name, state, time)` sequence of `save_state` calls,
applied in order to a table. -/
def applySaves : Table → List (String × String × RecipeState × Nat) → Table
  | db, [] => db
  | db, (u, a, s, t) :: rest => applySaves (save_state db u a s t) rest

/-- `ToolContext`: user, app, the store (its table), and the lazily loaded
`self._state` cache (`None` until first access). -/
structure ToolContext where
  user_id : String
  app_name : String
  db : Table
  cachedState : Option RecipeState := none

/-- The `state` property: return the cache, loading it from the store on first
access.  `none` models a JSON decode exception escaping `get_state`. -/
def ToolContext.loadState (c : ToolContext) : Option (RecipeState × ToolContext) :=
  match c.cachedState with
  | some st => some (st, c)
  | none =>
    match get_state c.db c.user_id c.app_name with
    | some st => some (st, { c with cachedState := some st })
    | none => none

/-- `ToolContext.save`: if `self._state` is set, recompute
`total_recipes = len(recipes)` and persist via `save_state`; otherwise do
nothing. -/
def ToolContext.save (c : ToolContext) (now : Nat) : ToolContext :=
  match c.cachedState with
  | none => c
  | some st =>
    let st' : RecipeState := { st with total_recipes := (st.recipes.length : Int) }
    { c with cachedState := some st',
             db := save_state c.db c.user_id c.app_name st' now }

/-- The `add_recipe` tool: build the recipe dict, append it to
`tool_context.state.recipes`, and `tool_context.save()`.  `none` models an
exception while loading the state (in which case nothing is written). -/
def add_recipe (c : ToolContext) (name ingredients instructions cook_time date : String)
    (now : Nat) : Option ToolContext :=
  match c.loadState with
  | none => none
  | some (st, c') =>
    let recipe : Recipe :=
      { name := name, ingredients := ingredients, instructions := instructions,
        cook_time := cook_time, date_added := date }
    some (ToolContext.save
      { c' with cachedState := some { st with recipes := st.recipes ++ [recipe] } } now)

/-- Index of the first recipe whose name matches case-insensitively, as the
`for i, recipe in enumerate(recipes)` loop of `delete_recipe` finds it. -/
def findRecipeIdx (recipes : List Recipe) (name : String) : Option Nat :=
  recipes.findIdx? (fun r => lowerStr r.name == lowerStr name)

/-- The `delete_recipe` tool: pop the first case-insensitive name match and
`tool_context.save()`; when no recipe matches, report not-found without
saving. -/
def delete_recipe (c : ToolContext) (name : String) (now : Nat) : Option ToolContext :=
  match c.loadState with
  | none => none
  | some (st, c') =>
    match findRecipeIdx st.recipes name with
    | some i =>
      some (ToolContext.save
        { c' with cachedState := some { st with recipes := st.recipes.eraseIdx i } } now)
    | none => some c'

/-- One recorded tool call of the persistent recipe assistant. -/
inductive ToolOp where
  | add (name ingredients instructions cook_time date : String) (now : Nat)
  | del (name : String) (now : Nat)
deriving Repr

def applyToolOp (c : ToolContext) : ToolOp → Option ToolContext
  | .add n ing ins ct d t => add_recipe c n ing ins ct d t
  | .del n t => delete_recipe c n t

/-- Run a sequence of tool calls; an exception (`none`) aborts the run. -/
def applyToolOps (c : ToolContext) : List ToolOp → Option ToolContext
  | [] => some c
  | op :: rest =>
    match applyToolOp c op with
    | some c' => applyToolOps c' rest
    | none => none

/-- The stored-document invariant of claim C10: whatever `get_state` observes
for this context's user and app has `total_recipes` equal to the length of its
`recipes` list. -/
def StoredInv (c : ToolContext) : Prop :=
  ∀ st : RecipeState, get_state c.db c.user_id c.app_name = some st →
    st.total_recipes = (st.recipes.length : Int)

end Recipes

namespace Sessions

/-- The `Session` dataclass of `session_object.py`.  `state` is a string-valued
dict in every use in this repository; `events` starts empty; timestamps are
naturals; the `AgentThread` field carries no observable data and is omitted. -/
structure Session where
  id : String
  app_name : String
  user_id : String
  state : List (String × String) := []
  events : List String := []
  last_update_time : Nat := 0
deriving Repr, DecidableEq

/-- `self._sessions`: a Python dict from the string key to the session, in
insertion order; keys are unique. -/
abbrev SessionMap := List (String × Session)

/-- The dict key built by all three service methods:
`f"\x7bapp_name\x7d:\x7buser_id\x7d:\x7bsession_id\x7d"`. -/
def sessionKey (app_name user_id session_id : String) : String :=
  app_name ++ ":" ++ user_id ++ ":" ++ session_id

/-- Python dict assignment `self._sessions[key] = session`: overwrite in place
when the key exists, append otherwise. -/
def dictInsert (m : SessionMap) (k : String) (v : Session) : SessionMap :=
  if m.any (fun p => p.1 == k) then
    m.map (fun p => if p.1 == k then (k, v) else p)
  else m ++ [(k, v)]

/-- Python dict lookup `self._sessions.get(key)`. -/
def dictGet (m : SessionMap) (k : String) : Option Session :=
  (m.find? (fun p => p.1 == k)).map (fun p => p.2)

/-- `InMemorySessionService.create_session` with an explicit `session_id`
(the `uuid4` default is the caller picking a fresh id).  Returns the updated
map and the created session. -/
def create_session (m : SessionMap) (app_name user_id session_id : String)
    (state : List (String × String)) (now : Nat) : SessionMap × Session :=
  let session : Session :=
    { id := session_id, app_name := app_name, user_id := user_id,
      state := state, events := [], last_update_time := now }
  (dictInsert m (sessionKey app_name user_id session_id) session, session)

/-- `InMemorySessionService.get_session`: `self._sessions.get(key)`. -/
def get_session (m : SessionMap) (app_name user_id session_id : String) : Option Session :=
  dictGet m (sessionKey app_name user_id session_id)

/-- `InMemorySessionService.delete_session`: `if key in self._sessions: del
...; return True` else `return False`.  (`del` removes the key; dict keys are
unique, so filtering all occurrences is the same removal.) -/
def delete_session (m : SessionMap) (app_name user_id session_id : String) :
    SessionMap × Bool :=
  let key := sessionKey app_name user_id session_id
  if m.any (fun p => p.1 == key) then
    (m.filter (fun p => p.1 != key), true)
  else (m, false)

end Sessions

namespace Callbacks

/-- Python `needle in hay` on strings: contiguous-substring test, checked at
every suffix of the haystack. -/
def charsContain (needle : List Char) : List Char → Bool
  | [] => needle.isEmpty
  | c :: rest => needle.isPrefixOf (c :: rest) || charsContain needle rest

def strContains (hay needle : String) : Bool :=
  charsContain needle.data hay.data

/-- `ModelCallbackMiddleware.MATH_KEYWORDS`. -/
def MATH_KEYWORDS : List String :=
  ["math", "calculate", "+", "-", "*", "/", "=", "plus", "minus", "times", "divided"]

/-- The fixed apology both variants return when blocking. -/
def APOLOGY : String :=
  "Sorry, I\x27m not allowed to help with math problems right now. Try asking about something else!"

/-- `ModelInterceptResult` dataclass. -/
structure ModelInterceptResult where
  blocked : Bool := false
  custom_response : Option String := none
deriving Repr, DecidableEq

/-- `ModelCallbackMiddleware._before_model_callback`: block when any keyword
occurs in the lowercased message, with the fixed apology as custom response. -/
def beforeModelCallback (user_message : String) : ModelInterceptResult :=
  if MATH_KEYWORDS.any (fun keyword => strContains (lowerStr user_message) keyword) then
    { blocked := true, custom_response := some APOLOGY }
  else
    { blocked := false }

/-- `ModelCallbackMiddleware._after_model_callback`: append the robot emoji to
a non-empty (truthy) response text, pass an empty text through unchanged. -/
def afterModelCallback (response_text : String) : String :=
  if response_text != "" then response_text ++ " 🤖"
  else response_text

/-- `ModelCallbackMiddleware.invoke`.  `next` is `next_handler` restricted to
its observable behaviour: the response content it produces for the message it
is given (`none` when the result is falsy or has no content).  The returned
`Bool` records whether `next_handler` was called, i.e. whether the model was
invoked; the `Option String` is the final response content. -/
def invoke (user_message : String) (next : String → Option String) :
    Bool × Option String :=
  let intercept_result := beforeModelCallback user_message
  if intercept_result.blocked then
    (false, intercept_result.custom_response)
  else
    match next user_message with
    | some t => (true, some (afterModelCallback t))
    | none => (true, none)

/-- The Google-ADK `before_model_callback` of `adk/model-callback/agent.py`:
its own inline keyword list, the same lowercased substring test, returning the
apology response when blocking and `None` (continue to the model) otherwise. -/
def adkBeforeModelCallback (user_message : String) : Option String :=
  let math_keywords : List String :=
    ["math", "calculate", "+", "-", "*", "/", "=", "plus", "minus", "times", "divided"]
  if math_keywords.any (fun keyword => strContains (lowerStr user_message) keyword) then
    some ("Sorry, I\x27m not allowed to help with math problems right now. " ++
      "Try asking about something else!")
  else
    none

/-- The Google-ADK `after_model_callback`: append the emoji to a non-empty
response text, return `None` (use the original response) otherwise. -/
def adkAfterModelCallback (response_text : String) : Option String :=
  if response_text != "" then some (response_text ++ " 🤖")
  else none

end Callbacks

namespace Parallel

/-- The dict `_run_agent` returns: `{"key": output_key, "agent": agent.name,
"content": response.content}`. -/
structure AgentRecord where
  key : String
  agent : String
  content : String
deriving Repr, DecidableEq

/-- `ParallelResults` dataclass. -/
structure ParallelResults where
  blog_content : String
  seo_strategy : String
  visual_content : String
  social_strategy : String
  email_campaigns : String
deriving Repr, DecidableEq

/-- The five sub-agents, abstracted to their observable behaviour: the
response content each produces for an input message. -/
structure Agents where
  blog_writer : String → String
  seo_specialist : String → String
  visual_creator : String → String
  social_media : String → String
  email_marketing : String → String

/-- `TrendAwareContentCreationSystem._run_agent`: one invocation of `agent` on
`user_input`, tagged with the output key. -/
def run_agent (agent : String → String) (name user_input output_key : String) :
    AgentRecord :=
  { key := output_key, agent := name, content := agent user_input }

/-- The five gathered task results, in task order (`asyncio.gather` returns
results in the order the tasks were given, whatever the completion order). -/
def gatheredResults (ags : Agents) (user_input : String) : List AgentRecord :=
  [run_agent ags.blog_writer "TrendAwareBlogWriterAgent" user_input "blog_content",
   run_agent ags.seo_specialist "TrendAwareSEOAgent" user_input "seo_strategy",
   run_agent ags.visual_creator "TrendAwareVisualAgent" user_input "visual_content",
   run_agent ags.social_media "TrendAwareSocialAgent" user_input "social_strategy",
   run_agent ags.email_marketing "TrendAwareEmailAgent" user_input "email_campaigns"]

/-- `{r["key"]: r["content"] for r in results}` followed by `.get(k, "")`:
the value of the last record with this key, else `""`. -/
def resultsDictGet (results : List AgentRecord) (k : String) : String :=
  match (results.reverse).find? (fun r => r.key == k) with
  | some r => r.content
  | none => ""

/-- Building the `ParallelResults` from the gathered result records. -/
def collectResults (results : List AgentRecord) : ParallelResults :=
  { blog_content := resultsDictGet results "blog_content",
    seo_strategy := resultsDictGet results "seo_strategy",
    visual_content := resultsDictGet results "visual_content",
    social_strategy := resultsDictGet results "social_strategy",
    email_campaigns := resultsDictGet results "email_campaigns" }

/-- `TrendAwareContentCreationSystem.run`. -/
def run (ags : Agents) (user_input : String) : ParallelResults :=
  collectResults (gatheredResults ags user_input)

end Parallel

namespace Recipes

theorem decodeRecipe_encodeRecipe (r : Recipe) :
    decodeRecipe (encodeRecipe r) = some r := rfl

theorem decodeRecipes_map (rs : List Recipe) :
    decodeRecipes (rs.map encodeRecipe) = some rs := by
  induction rs with
  | nil => rfl
  | cons r rest ih => simp [decodeRecipes, decodeRecipe_encodeRecipe, ih]

/-- The JSON round trip of `RecipeState` is the identity. -/
theorem decodeState_encodeState (s : RecipeState) :
    decodeState (encodeState s) = some s := by
  cases s with
  | mk c n rs => simp [encodeState, decodeState, stateFieldNames, List.lookup,
                       decodeRecipes_map]

theorem save_state_eq (db : Table) (u a : String) (s : RecipeState) (now : Nat) :
    save_state db u a s now =
      db.filter (fun p => p.1 != u) ++
        [(u, { app_name := a, state_json := encodeState s,
               created_at := coalesceCreated db u a now, updated_at := now })] := rfl

theorem find?_filter_ne_user (db : Table) (u : String) (q : String × Row → Bool)
    (hq : ∀ p : String × Row, q p = true → p.1 = u) :
    (db.filter (fun p => p.1 != u)).find? q = none := by
  rw [List.find?_eq_none]
  intro x hx
  rcases (List.mem_filter).mp hx with ⟨-, hne⟩
  intro hqx
  rw [hq x hqx] at hne
  simp at hne

theorem find?_save_state_self (db : Table) (u a : String) (s : RecipeState) (now : Nat) :
    (save_state db u a s now).find? (rowMatches u a) =
      some (u, { app_name := a, state_json := encodeState s,
                 created_at := coalesceCreated db u a now, updated_at := now }) := by
  rw [save_state_eq, List.find?_append,
      find?_filter_ne_user db u (rowMatches u a)
        (fun p hp => by simpa [rowMatches] using (And.left (by simpa [rowMatches] using hp)))]
  simp [rowMatches]

theorem get_state_save_state_self (db : Table) (u a : String) (s : RecipeState) (now : Nat) :
    get_state (save_state db u a s now) u a = some s := by
  rw [get_state, find?_save_state_self]
  exact decodeState_encodeState s

theorem countP_save_state_self (db : Table) (u a : String) (s : RecipeState) (now : Nat) :
    (save_state db u a s now).countP (rowMatches u a) = 1 := by
  rw [save_state_eq, List.countP_append]
  have h0 : (db.filter (fun p => p.1 != u)).countP (rowMatches u a) = 0 := by
    rw [List.countP_eq_zero]
    intro x hx
    rcases (List.mem_filter).mp hx with ⟨-, hne⟩
    intro hqx
    rw [show x.1 = u from by simpa [rowMatches] using (And.left (by simpa [rowMatches] using hqx))]
      at hne
    simp at hne
  rw [h0]
  simp [rowMatches]

theorem find?_save_state_other (db : Table) (u a : String) (s : RecipeState) (now : Nat)
    (u' a' : String) (hne : ¬(u = u' ∧ a = a'))
    (hdb : db.find? (rowMatches u' a') = none) :
    (save_state db u a s now).find? (rowMatches u' a') = none := by
  rw [save_state_eq, List.find?_append]
  have h1 : (db.filter (fun p => p.1 != u)).find? (rowMatches u' a') = none := by
    rw [List.find?_eq_none]
    intro x hx
    exact (List.find?_eq_none).mp hdb x ((List.mem_filter).mp hx).1
  rw [h1]
  simp only [Option.none_or, List.find?_singleton, rowMatches]
  by_cases hu : u = u' <;> by_cases ha : a = a' <;> simp_all

theorem applySaves_avoid (ops : List (String × String × RecipeState × Nat))
    (u a : String) (hops : ∀ op ∈ ops, ¬(op.1 = u ∧ op.2.1 = a)) :
    ∀ db : Table, db.find? (rowMatches u a) = none →
      (applySaves db ops).find? (rowMatches u a) = none := by
  induction ops with
  | nil => intro db hdb; exact hdb
  | cons op rest ih =>
    intro db hdb
    obtain ⟨u', a', s, t⟩ := op
    have hne : ¬(u' = u ∧ a' = a) := hops _ (List.mem_cons_self _ _)
    exact ih (fun o ho => hops o (List.mem_cons_of_mem _ ho)) _
      (find?_save_state_other db u' a' s t u a hne hdb)

/-- C1: the claim says saving under one app never overwrites the document
stored under another app for the same user.  The code violates it: `user_state`
declares `user_id TEXT PRIMARY KEY` (not a composite key over user and app),
so `INSERT OR REPLACE` on `save_state(u, a2, s2)` deletes the row holding
`(u, a1, s1)`; `get_state(u, a1)` then finds no row and returns the default
`RecipeState` instead of `s1`.  This theorem evaluates the embedded store at a
concrete failing input. -/
theorem C1_second_app_save_destroys_first_app_document :
    get_state
        (save_state
          (save_state [] "alice" "app_one"
            { chef_name := "Bob", total_recipes := 1,
              recipes := [{ name := "pasta", ingredients := "noodles",
                            instructions := "boil them", cook_time := "10 minutes",
                            date_added := "2026-01-01" }] } 1)
          "alice" "app_two" { chef_name := "Carol", total_recipes := 0, recipes := [] } 2)
        "alice" "app_one" =
      some { chef_name := "Alice", total_recipes := 0, recipes := [] } ∧
    ({ chef_name := "Alice", total_recipes := 0, recipes := [] } : RecipeState) ≠
      { chef_name := "Bob", total_recipes := 1,
        recipes := [{ name := "pasta", ingredients := "noodles",
                      instructions := "boil them", cook_time := "10 minutes",
                      date_added := "2026-01-01" }] } := by
  exact ⟨rfl, by decide⟩

/-- C2: for any non-empty sequence of `save_state(u, a, si)` calls on any
starting table, `get_state(u, a)` afterwards returns the last saved state
(round-tripped through the JSON encoding), and exactly one row of the table
matches that user/app key. -/
theorem C2_overwrite_on_update_last_write_wins (db : Table) (u a : String)
    (l : List (RecipeState × Nat)) (h : l ≠ []) :
    get_state (saveAll db u a l) u a = some (l.getLast h).1 ∧
    (saveAll db u a l).countP (rowMatches u a) = 1 := by
  induction l generalizing db with
  | nil => exact absurd rfl h
  | cons p rest ih =>
    obtain ⟨s, t⟩ := p
    cases rest with
    | nil =>
      exact ⟨get_state_save_state_self db u a s t, countP_save_state_self db u a s t⟩
    | cons q rest' =>
      rw [saveAll, List.getLast_cons (List.cons_ne_nil _ _)]
      exact ih (save_state db u a s t) (List.cons_ne_nil _ _)

theorem C2_witness :
    ([({ chef_name := "Bob", total_recipes := 0, recipes := [] }, 1),
      ({ chef_name := "Bob", total_recipes := 7, recipes := [] }, 2)] :
        List (RecipeState × Nat)) ≠ [] ∧
    get_state
        (saveAll [] "alice" "recipe_app"
          [({ chef_name := "Bob", total_recipes := 0, recipes := [] }, 1),
           ({ chef_name := "Bob", total_recipes := 7, recipes := [] }, 2)])
        "alice" "recipe_app" =
      some { chef_name := "Bob", total_recipes := 7, recipes := [] } ∧
    (saveAll [] "alice" "recipe_app"
        [({ chef_name := "Bob", total_recipes := 0, recipes := [] }, 1),
         ({ chef_name := "Bob", total_recipes := 7, recipes := [] }, 2)]).countP
      (rowMatches "alice" "recipe_app") = 1 := by
  refine ⟨by simp, ?_⟩
  have h := C2_overwrite_on_update_last_write_wins [] "alice" "recipe_app"
    [({ chef_name := "Bob", total_recipes := 0, recipes := [] }, 1),
     ({ chef_name := "Bob", total_recipes := 7, recipes := [] }, 2)] (by simp)
  exact ⟨h.1, h.2⟩

/-- C3: for a `(user, app)` pair never written by `save_state` (here: any
table reachable from the empty one by saves for other pairs), `get_state`
returns the default `RecipeState` — chef "Alice", zero recipes, empty list.
The read leaves the table unchanged by construction: `get_state` only runs a
`SELECT` and is embedded as a function that takes the table and returns a
value. -/
theorem C3_unsaved_pair_reads_default (ops : List (String × String × RecipeState × Nat))
    (u a : String) (hops : ∀ op ∈ ops, ¬(op.1 = u ∧ op.2.1 = a)) :
    get_state (applySaves [] ops) u a =
      some { chef_name := "Alice", total_recipes := 0, recipes := [] } := by
  have h := applySaves_avoid ops u a hops [] rfl
  rw [get_state, h]

theorem C3_witness :
    (∀ op ∈ ([("bob", "app_one", { chef_name := "Bob", total_recipes := 0, recipes := [] }, 1),
              ("alice", "other_app", { chef_name := "Bob", total_recipes := 0, recipes := [] }, 2)] :
        List (String × String × RecipeState × Nat)),
      ¬(op.1 = "alice" ∧ op.2.1 = "app_one")) ∧
    get_state
        (applySaves []
          [("bob", "app_one", { chef_name := "Bob", total_recipes := 0, recipes := [] }, 1),
           ("alice", "other_app", { chef_name := "Bob", total_recipes := 0, recipes := [] }, 2)])
        "alice" "app_one" =
      some { chef_name := "Alice", total_recipes := 0, recipes := [] } := by
  refine ⟨by decide, ?_⟩
  exact C3_unsaved_pair_reads_default _ "alice" "app_one" (by decide)

/-- C9: when `save_state` overwrites the row already stored for the same user
and app, the surviving row for that user keeps the old `created_at` (via the
`COALESCE` subquery) while `state_json` and `updated_at` take the new
values. -/
theorem C9_overwrite_preserves_created_at (db : Table) (u a : String) (s : RecipeState)
    (now : Nat) (p : String × Row) (hp : db.find? (rowMatches u a) = some p) :
    (save_state db u a s now).find? (fun q => q.1 == u) =
      some (u, { app_name := a, state_json := encodeState s,
                 created_at := p.2.created_at, updated_at := now }) := by
  rw [save_state_eq, List.find?_append,
      find?_filter_ne_user db u (fun q => q.1 == u) (fun q hq => eq_of_beq hq)]
  simp [coalesceCreated, hp]

theorem C9_witness :
    (save_state [] "alice" "recipe_app"
        { chef_name := "Bob", total_recipes := 0, recipes := [] } 5).find?
      (rowMatches "alice" "recipe_app") =
      some ("alice",
        { app_name := "recipe_app",
          state_json := encodeState { chef_name := "Bob", total_recipes := 0, recipes := [] },
          created_at := 5, updated_at := 5 }) ∧
    (save_state
        (save_state [] "alice" "recipe_app"
          { chef_name := "Bob", total_recipes := 0, recipes := [] } 5)
        "alice" "recipe_app" { chef_name := "Bob", total_recipes := 3, recipes := [] } 9).find?
      (fun q => q.1 == "alice") =
      some ("alice",
        { app_name := "recipe_app",
          state_json := encodeState { chef_name := "Bob", total_recipes := 3, recipes := [] },
          created_at := 5, updated_at := 9 }) := by
  refine ⟨rfl, ?_⟩
  exact C9_overwrite_preserves_created_at
    (save_state [] "alice" "recipe_app"
      { chef_name := "Bob", total_recipes := 0, recipes := [] } 5)
    "alice" "recipe_app" { chef_name := "Bob", total_recipes := 3, recipes := [] } 9
    ("alice",
      { app_name := "recipe_app",
        state_json := encodeState { chef_name := "Bob", total_recipes := 0, recipes := [] },
        created_at := 5, updated_at := 5 }) rfl

theorem StoredInv_congr (c c' : ToolContext) (hdb : c'.db = c.db)
    (hu : c'.user_id = c.user_id) (ha : c'.app_name = c.app_name) (h : StoredInv c) :
    StoredInv c' := by
  unfold StoredInv
  rw [hdb, hu, ha]
  exact h

theorem loadState_fields (c : ToolContext) (st : RecipeState) (c' : ToolContext)
    (h : c.loadState = some (st, c')) :
    c'.db = c.db ∧ c'.user_id = c.user_id ∧ c'.app_name = c.app_name := by
  unfold ToolContext.loadState at h
  cases hc : c.cachedState with
  | some st0 =>
    rw [hc] at h
    cases h
    exact ⟨rfl, rfl, rfl⟩
  | none =>
    rw [hc] at h
    cases hg : get_state c.db c.user_id c.app_name with
    | some st1 =>
      rw [hg] at h
      cases h
      exact ⟨rfl, rfl, rfl⟩
    | none =>
      rw [hg] at h
      cases h

theorem StoredInv_save (c : ToolContext) (now : Nat) (h : StoredInv c) :
    StoredInv (ToolContext.save c now) := by
  unfold ToolContext.save
  cases hc : c.cachedState with
  | none => exact h
  | some st =>
    intro st'' hst''
    simp only at hst''
    rw [get_state_save_state_self] at hst''
    cases hst''
    rfl

theorem add_recipe_eq (c : ToolContext) (st : RecipeState) (c1 : ToolContext)
    (n ing ins ct d : String) (t : Nat) (h : c.loadState = some (st, c1)) :
    add_recipe c n ing ins ct d t =
      some (ToolContext.save
        { c1 with cachedState := some { st with recipes :=
            st.recipes ++ [{ name := n, ingredients := ing, instructions := ins,
                             cook_time := ct, date_added := d }] } } t) := by
  unfold add_recipe
  rw [h]

theorem delete_recipe_eq_found (c : ToolContext) (st : RecipeState) (c1 : ToolContext)
    (n : String) (t i : Nat) (h : c.loadState = some (st, c1))
    (hi : findRecipeIdx st.recipes n = some i) :
    delete_recipe c n t =
      some (ToolContext.save
        { c1 with cachedState := some { st with recipes := st.recipes.eraseIdx i } } t) := by
  unfold delete_recipe
  rw [h]
  dsimp only
  rw [hi]

theorem delete_recipe_eq_missing (c : ToolContext) (st : RecipeState) (c1 : ToolContext)
    (n : String) (t : Nat) (h : c.loadState = some (st, c1))
    (hi : findRecipeIdx st.recipes n = none) :
    delete_recipe c n t = some c1 := by
  unfold delete_recipe
  rw [h]
  dsimp only
  rw [hi]

theorem StoredInv_applyToolOp (c : ToolContext) (op : ToolOp) (c' : ToolContext)
    (h : StoredInv c) (hop : applyToolOp c op = some c') : StoredInv c' := by
  cases op with
  | add n ing ins ct d t =>
    replace hop : add_recipe c n ing ins ct d t = some c' := hop
    cases hl : c.loadState with
    | none => unfold add_recipe at hop; rw [hl] at hop; cases hop
    | some p =>
      obtain ⟨st, c1⟩ := p
      rw [add_recipe_eq c st c1 n ing ins ct d t hl] at hop
      cases hop
      obtain ⟨hdb, hu, ha⟩ := loadState_fields c st c1 hl
      exact StoredInv_save _ t (StoredInv_congr c _ hdb hu ha h)
  | del n t =>
    replace hop : delete_recipe c n t = some c' := hop
    cases hl : c.loadState with
    | none => unfold delete_recipe at hop; rw [hl] at hop; cases hop
    | some p =>
      obtain ⟨st, c1⟩ := p
      obtain ⟨hdb, hu, ha⟩ := loadState_fields c st c1 hl
      cases hi : findRecipeIdx st.recipes n with
      | some i =>
        rw [delete_recipe_eq_found c st c1 n t i hl hi] at hop
        cases hop
        exact StoredInv_save _ t (StoredInv_congr c _ hdb hu ha h)
      | none =>
        rw [delete_recipe_eq_missing c st c1 n t hl hi] at hop
        cases hop
        exact StoredInv_congr c _ hdb hu ha h

theorem StoredInv_applyToolOps (ops : List ToolOp) :
    ∀ c c' : ToolContext, StoredInv c → applyToolOps c ops = some c' → StoredInv c' := by
  induction ops with
  | nil =>
    intro c c' h hops
    cases hops
    exact h
  | cons op rest ih =>
    intro c c' h hops
    unfold applyToolOps at hops
    cases h1 : applyToolOp c op with
    | none => rw [h1] at hops; cases hops
    | some c1 =>
      rw [h1] at hops
      exact ih c1 c' (StoredInv_applyToolOp c op c1 h h1) hops

/-- C10: `ToolContext.save` recomputes `total_recipes` from the recipe list
before every write, so starting from any store whose observed document already
satisfies `total_recipes = len(recipes)` (the empty store does: a read gives
the default state), any sequence of `add_recipe` and `delete_recipe` tool
calls leaves a stored document whose `total_recipes` equals the number of
stored recipes. -/
theorem C10_total_recipes_matches_length (c c' : ToolContext) (ops : List ToolOp)
    (hinv : ∀ st : RecipeState, get_state c.db c.user_id c.app_name = some st →
      st.total_recipes = (st.recipes.length : Int))
    (hrun : applyToolOps c ops = some c') :
    ∀ st : RecipeState, get_state c'.db c'.user_id c'.app_name = some st →
      st.total_recipes = (st.recipes.length : Int) :=
  StoredInv_applyToolOps ops c c' hinv hrun

theorem C10_witness :
    applyToolOps { user_id := "alice", app_name := "recipe_app", db := [], cachedState := none }
        [ToolOp.add "pasta" "noodles" "boil them" "10 minutes" "2026-01-01" 1,
         ToolOp.add "soup" "water" "heat it" "20 minutes" "2026-01-02" 2,
         ToolOp.del "pasta" 3] =
      some
        { user_id := "alice", app_name := "recipe_app",
          db := [("alice",
            { app_name := "recipe_app",
              state_json := encodeState
                { chef_name := "Alice", total_recipes := 1,
                  recipes := [{ name := "soup", ingredients := "water",
                                instructions := "heat it", cook_time := "20 minutes",
                                date_added := "2026-01-02" }] },
              created_at := 1, updated_at := 3 })],
          cachedState := some
            { chef_name := "Alice", total_recipes := 1,
              recipes := [{ name := "soup", ingredients := "water",
                            instructions := "heat it", cook_time := "20 minutes",
                            date_added := "2026-01-02" }] } } ∧
    ({ chef_name := "Alice", total_recipes := 1,
       recipes := [{ name := "soup", ingredients := "water", instructions := "heat it",
                     cook_time := "20 minutes",
                     date_added := "2026-01-02" }] } : RecipeState).total_recipes =
      (({ chef_name := "Alice", total_recipes := 1,
          recipes := [{ name := "soup", ingredients := "water", instructions := "heat it",
                        cook_time := "20 minutes",
                        date_added := "2026-01-02" }] } : RecipeState).recipes.length : Int) := by
  refine ⟨rfl, ?_⟩
  exact C10_total_recipes_matches_length
    { user_id := "alice", app_name := "recipe_app", db := [], cachedState := none }
    { user_id := "alice", app_name := "recipe_app",
      db := [("alice",
        { app_name := "recipe_app",
          state_json := encodeState
            { chef_name := "Alice", total_recipes := 1,
              recipes := [{ name := "soup", ingredients := "water",
                            instructions := "heat it", cook_time := "20 minutes",
                            date_added := "2026-01-02" }] },
          created_at := 1, updated_at := 3 })],
      cachedState := some
        { chef_name := "Alice", total_recipes := 1,
          recipes := [{ name := "soup", ingredients := "water",
                        instructions := "heat it", cook_time := "20 minutes",
                        date_added := "2026-01-02" }] } }
    [ToolOp.add "pasta" "noodles" "boil them" "10 minutes" "2026-01-01" 1,
     ToolOp.add "soup" "water" "heat it" "20 minutes" "2026-01-02" 2,
     ToolOp.del "pasta" 3]
    (by intro st hst; cases hst; rfl) rfl
    { chef_name := "Alice", total_recipes := 1,
      recipes := [{ name := "soup", ingredients := "water", instructions := "heat it",
                    cook_time := "20 minutes", date_added := "2026-01-02" }] } rfl

end Recipes

namespace Sessions

theorem find?_pred_congr {α : Type} (l : List α) (p q : α → Bool) (h : ∀ x, p x = q x) :
    l.find? p = l.find? q := by
  induction l with
  | nil => rfl
  | cons a t ih => rw [List.find?_cons, List.find?_cons, h a, ih]

/-- C8: when a session exists under the key built from `(app, user, id)`,
`delete_session` returns `True`, a subsequent `get_session` for that triple
returns `None`, and every other key of `self._sessions` is left unchanged;
when no such session exists, `delete_session` returns `False` and the map is
returned entirely unchanged. -/
theorem C8_delete_session_exact (m : SessionMap) (app_name user_id session_id : String) :
    (∀ s : Session, get_session m app_name user_id session_id = some s →
      (delete_session m app_name user_id session_id).2 = true ∧
      get_session (delete_session m app_name user_id session_id).1
        app_name user_id session_id = none ∧
      ∀ k : String, k ≠ sessionKey app_name user_id session_id →
        dictGet (delete_session m app_name user_id session_id).1 k = dictGet m k) ∧
    (get_session m app_name user_id session_id = none →
      delete_session m app_name user_id session_id = (m, false)) := by
  constructor
  · intro s hs
    obtain ⟨p, hfind, -⟩ := Option.map_eq_some'.mp hs
    have hmem := List.mem_of_find?_eq_some hfind
    have hp := List.find?_some hfind
    have hany : m.any (fun q => q.1 == sessionKey app_name user_id session_id) = true :=
      List.any_eq_true.mpr ⟨p, hmem, hp⟩
    refine ⟨by simp [delete_session, hany], ?_, ?_⟩
    · simp only [delete_session, hany, if_true, get_session, dictGet]
      rw [show (m.filter
            (fun q => q.1 != sessionKey app_name user_id session_id)).find?
            (fun q => q.1 == sessionKey app_name user_id session_id) = none from ?_]
      · rfl
      · rw [List.find?_eq_none]
        intro x hx hqx
        rcases (List.mem_filter).mp hx with ⟨-, hne⟩
        rw [eq_of_beq hqx] at hne
        simp at hne
    · intro k hk
      simp only [delete_session, hany, if_true, dictGet]
      rw [List.find?_filter, find?_pred_congr]
      intro x
      by_cases hxk : x.1 = k
      · subst hxk
        have hne : (x.1 != sessionKey app_name user_id session_id) = true := by
          simpa using hk
        simp [hne]
      · simp [hxk]
  · intro hs
    have hfind : m.find? (fun q => q.1 == sessionKey app_name user_id session_id) = none := by
      cases hf : m.find? (fun q => q.1 == sessionKey app_name user_id session_id) with
      | none => rfl
      | some p => rw [get_session, dictGet, hf] at hs; cases hs
    have hany : m.any (fun q => q.1 == sessionKey app_name user_id session_id) = false := by
      rw [List.any_eq_false]
      exact (List.find?_eq_none).mp hfind
    simp [delete_session, hany]

theorem C8_witness :
    get_session
        (create_session [] "my_app" "user123" "session-1" [("initial_key", "Hello")] 10).1
        "my_app" "user123" "session-1" =
      some { id := "session-1", app_name := "my_app", user_id := "user123",
             state := [("initial_key", "Hello")], events := [], last_update_time := 10 } ∧
    (delete_session
        (create_session [] "my_app" "user123" "session-1" [("initial_key", "Hello")] 10).1
        "my_app" "user123" "session-1").2 = true ∧
    get_session
        (delete_session
          (create_session [] "my_app" "user123" "session-1" [("initial_key", "Hello")] 10).1
          "my_app" "user123" "session-1").1
        "my_app" "user123" "session-1" = none ∧
    get_session ([] : SessionMap) "my_app" "user123" "missing" = none ∧
    delete_session ([] : SessionMap) "my_app" "user123" "missing" = ([], false) := by
  have h1 := (C8_delete_session_exact
    (create_session [] "my_app" "user123" "session-1" [("initial_key", "Hello")] 10).1
    "my_app" "user123" "session-1").1
    { id := "session-1", app_name := "my_app", user_id := "user123",
      state := [("initial_key", "Hello")], events := [], last_update_time := 10 } rfl
  have h2 := (C8_delete_session_exact ([] : SessionMap) "my_app" "user123" "missing").2 rfl
  exact ⟨rfl, h1.1, h1.2.1, rfl, h2⟩

end Sessions

namespace Callbacks

/-- C4: when the lowercased user message contains one of the math keywords,
`invoke` never calls `next_handler` (first component `false`) and returns the
fixed apology; otherwise `next_handler` is called on the very same message
(the request reaches the model unmodified) and its response, run through the
after-callback, is returned. -/
theorem C4_before_model_blocks_math (user_message : String) (next : String → Option String) :
    (MATH_KEYWORDS.any (fun k => strContains (lowerStr user_message) k) = true →
      invoke user_message next = (false, some APOLOGY)) ∧
    (MATH_KEYWORDS.any (fun k => strContains (lowerStr user_message) k) = false →
      invoke user_message next =
        (true, Option.map afterModelCallback (next user_message))) := by
  constructor
  · intro hb
    simp [invoke, beforeModelCallback, hb]
  · intro hb
    simp only [invoke, beforeModelCallback, hb, Bool.false_eq_true, if_false]
    cases next user_message <;> rfl

theorem C4_witness :
    MATH_KEYWORDS.any (fun k => strContains (lowerStr "Can you calculate 15 + 25?") k) = true ∧
    invoke "Can you calculate 15 + 25?" (fun _ => some "the answer is 40") =
      (false, some APOLOGY) ∧
    MATH_KEYWORDS.any (fun k => strContains (lowerStr "hello, how are you?") k) = false ∧
    invoke "hello, how are you?" (fun _ => some "doing well") =
      (true, some "doing well 🤖") := by
  refine ⟨by decide, ?_, by decide, ?_⟩
  · exact (C4_before_model_blocks_math "Can you calculate 15 + 25?"
      (fun _ => some "the answer is 40")).1 (by decide)
  · exact (C4_before_model_blocks_math "hello, how are you?"
      (fun _ => some "doing well")).2 (by decide)

/-- C5: for a non-empty model response text, both the Microsoft-framework
after-callback and the Google-ADK after-callback append exactly " 🤖"; for an
empty text the Microsoft variant returns the text unchanged and the ADK
variant returns `None`, meaning the original response is used unchanged. -/
theorem C5_after_model_appends_emoji (response_text : String) :
    (response_text ≠ "" →
      afterModelCallback response_text = response_text ++ " 🤖" ∧
      adkAfterModelCallback response_text = some (response_text ++ " 🤖")) ∧
    (response_text = "" →
      afterModelCallback response_text = response_text ∧
      adkAfterModelCallback response_text = none) := by
  constructor
  · intro ht
    simp [afterModelCallback, adkAfterModelCallback, ht]
  · intro ht
    subst ht
    simp [afterModelCallback, adkAfterModelCallback]

theorem C5_witness :
    ("It is sunny today." : String) ≠ "" ∧
    afterModelCallback "It is sunny today." = "It is sunny today. 🤖" ∧
    adkAfterModelCallback "It is sunny today." = some "It is sunny today. 🤖" := by
  have h := (C5_after_model_appends_emoji "It is sunny today.").1 (by decide)
  exact ⟨by decide, by rw [h.1]; rfl, by rw [h.2]; rfl⟩

/-- C6: the Google-ADK and Microsoft-framework before-model filters are
equivalent: on every message they block under exactly the same condition
(same keyword list, same lowercased substring test), and the custom response
of the Microsoft variant coincides with the ADK return value — the identical
apology when blocked, nothing when the request proceeds. -/
theorem C6_adk_mfa_filter_equivalent (user_message : String) :
    (beforeModelCallback user_message).blocked =
      (adkBeforeModelCallback user_message).isSome ∧
    (beforeModelCallback user_message).custom_response =
      adkBeforeModelCallback user_message := by
  by_cases h : MATH_KEYWORDS.any (fun k => strContains (lowerStr user_message) k) = true
  · simp only [beforeModelCallback, adkBeforeModelCallback, MATH_KEYWORDS] at *
    rw [if_pos h, if_pos h]
    exact ⟨rfl, rfl⟩
  · simp only [beforeModelCallback, adkBeforeModelCallback, MATH_KEYWORDS] at *
    rw [if_neg h, if_neg h]
    exact ⟨rfl, rfl⟩

end Callbacks

namespace Parallel

theorem find?_perm_of_unique {α : Type} (p : α → Bool) (l₁ l₂ : List α)
    (hperm : l₁.Perm l₂)
    (huniq : ∀ a ∈ l₂, ∀ b ∈ l₂, p a = true → p b = true → a = b) :
    l₁.find? p = l₂.find? p := by
  cases h1 : l₁.find? p with
  | some a =>
    have ha : a ∈ l₂ := hperm.mem_iff.mp (List.mem_of_find?_eq_some h1)
    have hpa := List.find?_some h1
    cases h2 : l₂.find? p with
    | some b =>
      have hb := List.mem_of_find?_eq_some h2
      have hpb := List.find?_some h2
      rw [huniq a ha b hb hpa hpb]
    | none => exact absurd hpa ((List.find?_eq_none).mp h2 a ha)
  | none =>
    cases h2 : l₂.find? p with
    | some b =>
      have hb : b ∈ l₁ := hperm.mem_iff.mpr (List.mem_of_find?_eq_some h2)
      exact absurd (List.find?_some h2) ((List.find?_eq_none).mp h1 b hb)
    | none => rfl

theorem gathered_key_unique (ags : Agents) (x k : String) :
    ∀ a ∈ (gatheredResults ags x).reverse, ∀ b ∈ (gatheredResults ags x).reverse,
      (a.key == k) = true → (b.key == k) = true → a = b := by
  intro a ha b hb hak hbk
  have hka := eq_of_beq hak
  have hkb := eq_of_beq hbk
  simp only [gatheredResults, run_agent, List.reverse_cons, List.reverse_nil,
    List.nil_append, List.cons_append, List.mem_cons, List.not_mem_nil, or_false]
    at ha hb
  rcases ha with rfl|rfl|rfl|rfl|rfl <;> rcases hb with rfl|rfl|rfl|rfl|rfl <;>
      simp_all <;>
    exact absurd (hak.trans hbk.symm) (by decide)

theorem resultsDictGet_perm (ags : Agents) (x : String) (l : List AgentRecord)
    (hperm : l.Perm (gatheredResults ags x)) (k : String) :
    resultsDictGet l k = resultsDictGet (gatheredResults ags x) k := by
  unfold resultsDictGet
  rw [find?_perm_of_unique (fun r => r.key == k) l.reverse (gatheredResults ags x).reverse
      ((l.reverse_perm).trans (hperm.trans (gatheredResults ags x).reverse_perm.symm))
      (gathered_key_unique ags x k)]

/-- C7: `run` invokes each of the five sub-agents once on the user input, and
the `ParallelResults` field registered under each output key equals that
sub-agent's response content; aggregating the gathered records in any
completion order (any permutation of the task-order list) produces the same
`ParallelResults`. -/
theorem C7_parallel_fanout_keyed_aggregation (ags : Agents) (user_input : String)
    (l : List AgentRecord) (hperm : l.Perm (gatheredResults ags user_input)) :
    run ags user_input =
      { blog_content := ags.blog_writer user_input,
        seo_strategy := ags.seo_specialist user_input,
        visual_content := ags.visual_creator user_input,
        social_strategy := ags.social_media user_input,
        email_campaigns := ags.email_marketing user_input } ∧
    collectResults l = run ags user_input := by
  constructor
  · rfl
  · unfold run collectResults
    simp only [resultsDictGet_perm ags user_input l hperm]

theorem C7_witness :
    ([{ key := "email_campaigns", agent := "TrendAwareEmailAgent", content := "E:topic" },
      { key := "social_strategy", agent := "TrendAwareSocialAgent", content := "M:topic" },
      { key := "visual_content", agent := "TrendAwareVisualAgent", content := "V:topic" },
      { key := "seo_strategy", agent := "TrendAwareSEOAgent", content := "S:topic" },
      { key := "blog_content", agent := "TrendAwareBlogWriterAgent", content := "B:topic" }] :
        List AgentRecord).Perm
      (gatheredResults
        { blog_writer := fun s => "B:" ++ s, seo_specialist := fun s => "S:" ++ s,
          visual_creator := fun s => "V:" ++ s, social_media := fun s => "M:" ++ s,
          email_marketing := fun s => "E:" ++ s } "topic") ∧
    collectResults
        [{ key := "email_campaigns", agent := "TrendAwareEmailAgent", content := "E:topic" },
         { key := "social_strategy", agent := "TrendAwareSocialAgent", content := "M:topic" },
         { key := "visual_content", agent := "TrendAwareVisualAgent", content := "V:topic" },
         { key := "seo_strategy", agent := "TrendAwareSEOAgent", content := "S:topic" },
         { key := "blog_content", agent := "TrendAwareBlogWriterAgent", content := "B:topic" }] =
      { blog_content := "B:topic", seo_strategy := "S:topic", visual_content := "V:topic",
        social_strategy := "M:topic", email_campaigns := "E:topic" } := by
  have h := C7_parallel_fanout_keyed_aggregation
    { blog_writer := fun s => "B:" ++ s, seo_specialist := fun s => "S:" ++ s,
      visual_creator := fun s => "V:" ++ s, social_media := fun s => "M:" ++ s,
      email_marketing := fun s => "E:" ++ s } "topic"
    [{ key := "email_campaigns", agent := "TrendAwareEmailAgent", content := "E:topic" },
     { key := "social_strategy", agent := "TrendAwareSocialAgent", content := "M:topic" },
     { key := "visual_content", agent := "TrendAwareVisualAgent", content := "V:topic" },
     { key := "seo_strategy", agent := "TrendAwareSEOAgent", content := "S:topic" },
     { key := "blog_content", agent := "TrendAwareBlogWriterAgent", content := "B:topic" }]
    (by decide)
  refine ⟨by decide, ?_⟩
  rw [h.2, h.1]
  rfl

end Parallel
